import Mathlib

/-!
Verification development for the Planet Tracker program
(`src/Planet_Tracker.py`).

The core logic of the script is shallowly embedded below. Degrees are
modelled as rationals (`ℚ`); the ephemeris lookup (astropy's
`get_body`/`get_sun` followed by `transform_to(altaz)`) is modelled as an
abstract provider function from body names to altitude/azimuth samples,
and — where a claim concerns provider failure — as a function into
`Except Unit`.
-/

namespace PlanetTracker

/-- An altitude/azimuth sample in degrees, the result of one ephemeris
provider call for one body (the `.alt.degree` / `.az.degree` pair read by
the script). -/
structure Sample where
  alt : ℚ
  az : ℚ
  deriving DecidableEq, Repr

/-- The lighting regime distinguished by the plotting branch
(lines 100–108 of the source). -/
inductive Regime where
  | Night
  | Twilight
  | Day
  deriving DecidableEq, Repr

/-- Line 82: `is_night = sun.alt.degree < -6`. -/
def is_night (sunAlt : ℚ) : Bool := sunAlt < -6

/-- Line 83: `is_day = sun.alt.degree > 0`. -/
def is_day (sunAlt : ℚ) : Bool := sunAlt > 0

/-- The lighting-regime branch of the source (lines 100–108):
`if is_night: … elif is_day: … else: …`, where the `else` arm is the
twilight rendering. -/
def classify (sunAlt : ℚ) : Regime :=
  if is_night sunAlt then Regime.Night
  else if is_day sunAlt then Regime.Day
  else Regime.Twilight

/-- The `planets` dict of the source (lines 68–77): body name to display
color, in insertion order; this is the catalog the visibility loop and the
rise/set loop iterate over. -/
def planets : List (String × String) :=
  [("mercury", "blue"),
   ("venus", "orange"),
   ("mars", "red"),
   ("jupiter", "green"),
   ("saturn", "purple"),
   ("uranus", "cyan"),
   ("neptune", "darkblue"),
   ("sun", "yellow")]

/-- C1: the lighting regime classifier is a total, non-overlapping
partition of solar altitude: Night iff `a < -6`, Twilight iff
`-6 ≤ a ≤ 0`, Day iff `a > 0`; at exactly `a = -6` and exactly `a = 0`
the result is Twilight. -/
theorem classify_partition (a : ℚ) :
    (classify a = Regime.Night ↔ a < -6) ∧
    (classify a = Regime.Twilight ↔ -6 ≤ a ∧ a ≤ 0) ∧
    (classify a = Regime.Day ↔ a > 0) ∧
    classify (-6) = Regime.Twilight ∧ classify 0 = Regime.Twilight := by
  rcases lt_or_le a (-6) with h | h
  · have hc : classify a = Regime.Night := by simp [classify, is_night, h]
    refine ⟨iff_of_true hc h, iff_of_false (by simp [hc]) ?_,
      iff_of_false (by simp [hc]) (by simp; linarith), by decide, by decide⟩
    rintro ⟨h6, -⟩; exact absurd h (not_lt.mpr h6)
  · rcases le_or_lt a 0 with h0 | h0
    · have hc : classify a = Regime.Twilight := by
        simp [classify, is_night, is_day, not_lt.mpr h, not_lt.mpr h0]
      exact ⟨iff_of_false (by simp [hc]) (not_lt.mpr h),
        iff_of_true hc ⟨h, h0⟩,
        iff_of_false (by simp [hc]) (not_lt.mpr h0), by decide, by decide⟩
    · have hc : classify a = Regime.Day := by
        simp [classify, is_night, is_day, not_lt.mpr h, h0]
      refine ⟨iff_of_false (by simp [hc]) (not_lt.mpr (by linarith)),
        iff_of_false (by simp [hc]) ?_,
        iff_of_true hc h0, by decide, by decide⟩
      rintro ⟨-, h1⟩; exact absurd h0 (not_lt.mpr h1)

/-- Witness for C1 at a concrete input (the spec's scenario): solar
altitude −10° classifies as Night. -/
theorem classify_partition_witness : classify (-10) = Regime.Night :=
  (classify_partition (-10)).1.mpr (by norm_num)

/-! ## Visibility snapshot (source lines 79–96, 110–111)

The loop `for planet, color in planets.items(): … if obj.alt.degree > 0:
altitudes.append…; azimuths.append…; labels.append(planet.capitalize());
colors.append(color)` builds four parallel lists, one entry per catalog
body whose altitude is strictly positive, in catalog order.  We model the
parallel lists as a single list of rows (their pointwise zip) plus
projections recovering each of the source's four lists. -/

/-- One appended entry of the visibility loop: the body's altitude,
azimuth, capitalized label and display color. -/
structure VisibleRow where
  altitude : ℚ
  azimuth : ℚ
  label : String
  color : String
  deriving DecidableEq, Repr

/-- The row the loop body (lines 88–91) appends for a catalog entry
`pc = (planet, color)` given the provider's sample for it. -/
def mkRow (pos : String → Sample) (pc : String × String) : VisibleRow :=
  ⟨(pos pc.1).alt, (pos pc.1).az, pc.1.capitalize, pc.2⟩

/-- The catalog entries passing the horizon filter `obj.alt.degree > 0`
(line 87), in catalog order. -/
def visiblePlanets (pos : String → Sample) : List (String × String) :=
  planets.filter (fun pc => 0 < (pos pc.1).alt)

/-- The visibility snapshot: one row per visible catalog body, in catalog
order (the zip of the source's `altitudes`, `azimuths`, `labels`,
`colors` lists). -/
def visibleRows (pos : String → Sample) : List VisibleRow :=
  (visiblePlanets pos).map (mkRow pos)

/-- The source's `altitudes` list. -/
def altitudes (pos : String → Sample) : List ℚ :=
  (visibleRows pos).map (fun row => row.altitude)

/-- The source's `azimuths` list. -/
def azimuths (pos : String → Sample) : List ℚ :=
  (visibleRows pos).map (fun row => row.azimuth)

/-- The source's `labels` list. -/
def labels (pos : String → Sample) : List String :=
  (visibleRows pos).map (fun row => row.label)

/-- The polar radius of one body, line 111: `90 - altitude`. -/
def projRadius (altitude : ℚ) : ℚ := 90 - altitude

/-- The inverse map named by the specification: `altitude = 90 - radius`. -/
def altitude_of_radius (r : ℚ) : ℚ := 90 - r

/-- Line 111: `altitudes_transformed = 90 - np.array(altitudes)`. -/
def altitudes_transformed (pos : String → Sample) : List ℚ :=
  (altitudes pos).map projRadius

/-- Line 110 maps each azimuth to radians (`azimuth · π/180`) purely as a
unit change for the polar axes; the angular coordinate of each plotted
body, expressed back in degrees, is its azimuth unchanged. -/
def thetas (pos : String → Sample) : List ℚ :=
  azimuths pos

/-- C2: a body is included in the visible-body snapshot iff its altitude
is strictly greater than 0 degrees; a body at exactly 0.0 degrees is
excluded. -/
theorem visible_iff_alt_pos (pos : String → Sample) (pc : String × String) :
    (pc ∈ visiblePlanets pos ↔ pc ∈ planets ∧ 0 < (pos pc.1).alt) ∧
    ((pos pc.1).alt = 0 → pc ∉ visiblePlanets pos) ∧
    visibleRows pos = (visiblePlanets pos).map (mkRow pos) := by
  refine ⟨by simp [visiblePlanets, List.mem_filter], fun h0 hmem => ?_, rfl⟩
  have := (List.mem_filter.mp hmem).2
  rw [h0] at this
  simp at this

/-- Witness for C2 at a concrete input: a provider putting every body at
exactly 0.0° altitude yields a snapshot excluding the Sun. -/
theorem visible_iff_alt_pos_witness :
    ("sun", "yellow") ∉ visiblePlanets (fun _ => ⟨0, 180⟩) :=
  (visible_iff_alt_pos (fun _ => ⟨0, 180⟩) ("sun", "yellow")).2.1 rfl

/-- In a duplicate-free list every member is counted exactly once. -/
theorem countP_eq_one_of_nodup_mem {α : Type} [DecidableEq α] {l : List α}
    (d : l.Nodup) {a : α} (h : a ∈ l) :
    l.countP (fun x => x = a) = 1 := by
  induction l with
  | nil => cases h
  | cons b t ih =>
    rw [List.countP_cons]
    rcases List.mem_cons.mp h with rfl | ht
    · have hb : a ∉ t := (List.nodup_cons.mp d).1
      have h0 : t.countP (fun x => x = a) = 0 :=
        List.countP_eq_zero.mpr (fun x hx => by
          simp only [decide_eq_true_eq]
          rintro rfl
          exact hb hx)
      simp [h0]
    · have hne : b ≠ a := by
        rintro rfl
        exact (List.nodup_cons.mp d).1 ht
      have h1 : t.countP (fun x => x = a) = 1 := ih (List.nodup_cons.mp d).2 ht
      simp [h1, hne]

/-- C3: each body with positive altitude appears in the snapshot exactly
once; the snapshot is a stable filter of the catalog (a sublist, hence
catalog insertion order, never re-sorted); when no body is visible the
sequence is empty — a value the builder returns, not an error. -/
theorem visible_stable_filter (pos : String → Sample) :
    (∀ pc ∈ planets, 0 < (pos pc.1).alt →
      (visiblePlanets pos).countP (fun x => x = pc) = 1) ∧
    (visiblePlanets pos).Sublist planets ∧
    visibleRows pos = (visiblePlanets pos).map (mkRow pos) ∧
    ((∀ pc ∈ planets, ¬0 < (pos pc.1).alt) → visibleRows pos = []) := by
  have hnd : planets.Nodup := by decide
  refine ⟨fun pc hm halt => ?_, List.filter_sublist planets, rfl, fun hall => ?_⟩
  · have hmf : pc ∈ visiblePlanets pos := by
      unfold visiblePlanets
      rw [List.mem_filter]
      exact ⟨hm, by simpa using halt⟩
    exact countP_eq_one_of_nodup_mem (hnd.filter _) hmf
  · have hvp : visiblePlanets pos = [] := by
      unfold visiblePlanets
      rw [List.filter_eq_nil_iff]
      intro pc hm
      simpa using hall pc hm
    simp [visibleRows, hvp]

/-- Witness for C3 at concrete inputs: with every body at +45° Mercury
appears exactly once; with every body at −10° the snapshot is empty. -/
theorem visible_stable_filter_witness :
    (visiblePlanets (fun _ => ⟨45, 180⟩)).countP
      (fun x => x = ("mercury", "blue")) = 1 ∧
    visibleRows (fun _ => ⟨-10, 0⟩) = [] :=
  ⟨(visible_stable_filter (fun _ => ⟨45, 180⟩)).1 ("mercury", "blue")
      (by decide) (by norm_num),
   (visible_stable_filter (fun _ => ⟨-10, 0⟩)).2.2.2 (by decide)⟩

/-- C4: the polar projection maps each visible body by theta = azimuth
and radius = 90 − altitude, and `radius = 90 − altitude`,
`altitude = 90 − radius` are mutually inverse on altitude ∈ (0, 90];
zenith (90°) maps to radius 0 and the horizon (0°) to radius 90. -/
theorem projection_round_trip (pos : String → Sample) (a r : ℚ) :
    thetas pos = (visibleRows pos).map (fun row => row.azimuth) ∧
    altitudes_transformed pos =
      (visibleRows pos).map (fun row => 90 - row.altitude) ∧
    (0 < a ∧ a ≤ 90 → altitude_of_radius (projRadius a) = a) ∧
    projRadius (altitude_of_radius r) = r ∧
    projRadius 90 = 0 ∧ projRadius 0 = 90 := by
  refine ⟨rfl, ?_, fun _ => ?_, ?_, by norm_num [projRadius], by norm_num [projRadius]⟩
  · simp [altitudes_transformed, altitudes, projRadius]
  · simp [altitude_of_radius, projRadius]
  · simp [altitude_of_radius, projRadius]

/-- Witness for C4 at a concrete input: a body at altitude 45°, azimuth
180° projects to radius 45 and back to altitude 45. -/
theorem projection_round_trip_witness :
    altitude_of_radius (projRadius 45) = 45 ∧ projRadius 45 = 45 :=
  ⟨(projection_round_trip (fun _ => ⟨45, 180⟩) 45 45).2.2.1 (by norm_num),
   by norm_num [projRadius]⟩

/-- C9: the snapshot builder is a pure, deterministic function of its
inputs — the same provider yields a syntactically identical snapshot, and
the result depends only on the provider's values on the catalog. -/
theorem snapshot_deterministic (p1 p2 : String → Sample) :
    visibleRows p1 = visibleRows p1 ∧
    ((∀ pc ∈ planets, p1 pc.1 = p2 pc.1) → visibleRows p1 = visibleRows p2) := by
  refine ⟨rfl, fun h => ?_⟩
  unfold visibleRows visiblePlanets
  have hf : planets.filter (fun pc => decide (0 < (p1 pc.1).alt)) =
      planets.filter (fun pc => decide (0 < (p2 pc.1).alt)) :=
    List.filter_congr (fun pc hm => by rw [h pc hm])
  rw [hf]
  exact List.map_congr_left (fun pc hm => by
    unfold mkRow
    rw [h pc (List.Sublist.subset (List.filter_sublist planets) hm)])

/-- Witness for C9: two providers that differ outside the catalog but
agree on it produce identical snapshots. -/
theorem snapshot_deterministic_witness :
    visibleRows (fun _ => ⟨45, 180⟩) =
      visibleRows (fun s => if s = "pluto" then ⟨-1, 0⟩ else ⟨45, 180⟩) :=
  (snapshot_deterministic (fun _ => ⟨45, 180⟩)
    (fun s => if s = "pluto" then ⟨-1, 0⟩ else ⟨45, 180⟩)).2 (by decide)

/-! ## Rise/set table (source lines 143–167)

The loop `for planet in planets.keys(): … try: rise_time = …; set_time = …
except: rise_str = "Never rises"; set_str = "Never sets";
rise_set_info.append((planet.capitalize(), rise_str, set_str))` computes a
rise/set row per catalog body.  Each iteration has two distinct failure
surfaces: the body/target construction `get_body`/`get_sun` and
`FixedTarget` at lines 150–151 sits OUTSIDE the `try`, so an exception
there propagates uncaught and aborts the whole loop; everything inside the
`try` block — the astroplan rise/set search, time-zone conversion and
`strftime` formatting — is caught by the bare `except:` and is modelled as
one fallible computation producing the two formatted strings. -/

/-- The `try`/`except` of one loop iteration (lines 152–159): on success
the formatted `(rise_str, set_str)` pair, on any exception the fixed pair
`("Never rises", "Never sets")`. -/
def riseSetRow (r : Except Unit (String × String)) : String × String :=
  match r with
  | Except.ok p => p
  | Except.error _ => ("Never rises", "Never sets")

/-- The `rise_set_info` table as rendered (lines 146–167) in the case
where the uncaught construction stage at lines 150–151 succeeded for every
body: one appended triple `(planet.capitalize(), rise_str, set_str)` per
catalog body, in catalog order.  The full loop, construction stage
included, is `rise_set_loop` below. -/
def rise_set_info (res : String → Except Unit (String × String)) :
    List (String × String × String) :=
  planets.map (fun pc =>
    (pc.1.capitalize, (riseSetRow (res pc.1)).1, (riseSetRow (res pc.1)).2))

/-- The full rise/set loop (lines 148–160).  `prep` models the uncaught
body/target construction of lines 150–151 (`get_body`/`get_sun` and
`FixedTarget`): an exception there propagates as `Except.error`, aborting
the loop with no row appended for that body.  `res` models the `try`
block's computation; its failures are caught and rendered by
`riseSetRow`. -/
def rise_set_loop (prep : String → Except Unit Unit)
    (res : String → Except Unit (String × String)) :
    List (String × String) → Except Unit (List (String × String × String))
  | [] => Except.ok []
  | pc :: rest =>
    match prep pc.1 with
    | Except.error e => Except.error e
    | Except.ok _ =>
      match rise_set_loop prep res rest with
      | Except.error e => Except.error e
      | Except.ok tail =>
        Except.ok
          ((pc.1.capitalize, (riseSetRow (res pc.1)).1, (riseSetRow (res pc.1)).2)
            :: tail)

/-- The rise/set loop aborts iff the uncaught construction stage fails for
some body of the list. -/
theorem rise_set_loop_error_iff (prep : String → Except Unit Unit)
    (res : String → Except Unit (String × String))
    (l : List (String × String)) :
    rise_set_loop prep res l = Except.error () ↔
      ∃ pc ∈ l, prep pc.1 = Except.error () := by
  induction l with
  | nil => simp [rise_set_loop]
  | cons pc rest ih =>
    simp only [rise_set_loop]
    cases hp : prep pc.1 with
    | error e =>
      cases e
      constructor
      · intro
        exact ⟨pc, List.mem_cons_self pc rest, hp⟩
      · intro
        rfl
    | ok u =>
      cases hr : rise_set_loop prep res rest with
      | error e =>
        cases e
        constructor
        · intro
          obtain ⟨pc', hm, herr⟩ := ih.mp hr
          exact ⟨pc', List.mem_cons_of_mem _ hm, herr⟩
        · intro
          rfl
      | ok tail =>
        constructor
        · intro h
          cases h
        · rintro ⟨pc', hm, herr⟩
          rcases List.mem_cons.mp hm with rfl | hm'
          · rw [hp] at herr
            cases herr
          · rw [ih.mpr ⟨pc', hm', herr⟩] at hr
            cases hr

/-- When the construction stage succeeds everywhere on the list, the loop
appends one row per body of the list. -/
theorem rise_set_loop_ok (prep : String → Except Unit Unit)
    (res : String → Except Unit (String × String))
    (l : List (String × String))
    (h : ∀ pc ∈ l, prep pc.1 = Except.ok ()) :
    rise_set_loop prep res l =
      Except.ok (l.map (fun pc =>
        (pc.1.capitalize, (riseSetRow (res pc.1)).1, (riseSetRow (res pc.1)).2))) := by
  induction l with
  | nil => rfl
  | cons pc rest ih =>
    simp only [rise_set_loop]
    rw [h pc (List.mem_cons_self pc rest),
      ih (fun x hx => h x (List.mem_cons_of_mem _ hx))]
    rfl

/-- Counterexample to C5: when the computation for a body raises (provider
failure included), the reported row is exactly the `NeverRises`/`NeverSets`
rendering — the result carries no distinct `Indeterminate` outcome, so a
provider failure is not distinguishable from a no-crossing outcome. -/
theorem riseSetRow_error_cex :
    riseSetRow (Except.error ()) = ("Never rises", "Never sets") := rfl

/-- C5 amended: every exception while computing a body's rise/set times —
provider failure and no-crossing alike — yields the same row
`("Never rises", "Never sets")`; only a success carries times, so the
result type does not distinguish provider failure from `NeverRises` /
`NeverSets`. -/
theorem riseSetRow_conflates_failures (e1 e2 : Unit) (p : String × String) :
    riseSetRow (Except.error e1) = ("Never rises", "Never sets") ∧
    riseSetRow (Except.error e1) = riseSetRow (Except.error e2) ∧
    riseSetRow (Except.ok p) = p :=
  ⟨rfl, rfl, rfl⟩

/-- A construction stage (lines 150–151) raising for Mars alone and
succeeding for every other body. -/
def prepFailMars : String → Except Unit Unit :=
  fun s => if s = "mars" then Except.error () else Except.ok ()

/-- Counterexample to C10: a per-body failure at the construction stage
(lines 150–151, outside the `try`) aborts the loop — with `get_body`
raising for Mars alone the loop yields no table at all, not one row per
catalog body, so the table does not always contain 8 rows regardless of
per-body failures. -/
theorem rise_set_abort_cex :
    rise_set_loop prepFailMars (fun _ => Except.ok ("06:00", "18:00")) planets =
      Except.error () := rfl

/-- C10 amended: the loop aborts with no row for a body whose uncaught
construction stage (lines 150–151) raises — it errors iff that stage fails
for some catalog body; when the construction stage succeeds for every body,
each iteration appends exactly one row — on success and on exception inside
the `try` alike — so the table then has exactly one row per catalog body
(8 rows) in catalog order without duplicate names, and a body whose `try`
block raises gets the simultaneous `("Never rises", "Never sets")` row. -/
theorem rise_set_one_row_per_body (prep : String → Except Unit Unit)
    (res : String → Except Unit (String × String)) :
    (rise_set_loop prep res planets = Except.error () ↔
      ∃ pc ∈ planets, prep pc.1 = Except.error ()) ∧
    ((∀ pc ∈ planets, prep pc.1 = Except.ok ()) →
      rise_set_loop prep res planets = Except.ok (rise_set_info res)) ∧
    (rise_set_info res).length = 8 ∧
    (rise_set_info res).map (fun row => row.1) =
      planets.map (fun pc => pc.1.capitalize) ∧
    ((rise_set_info res).map (fun row => row.1)).Nodup ∧
    (∀ pc ∈ planets, res pc.1 = Except.error () →
      (pc.1.capitalize, "Never rises", "Never sets") ∈ rise_set_info res) := by
  have hmap : (rise_set_info res).map (fun row => row.1) =
      planets.map (fun pc => pc.1.capitalize) := by
    rw [rise_set_info, List.map_map]
    rfl
  refine ⟨rise_set_loop_error_iff prep res planets,
    fun h => by rw [rise_set_loop_ok prep res planets h]; rfl,
    rfl, hmap, ?_, fun pc hm herr => ?_⟩
  · rw [hmap]
    decide
  · refine List.mem_map.mpr ⟨pc, hm, ?_⟩
    rw [herr]
    rfl

/-- Witness for C10 (amended): with the construction stage succeeding
everywhere and every `try` block raising, the loop returns the full table
and Mercury's row is the simultaneous never-rises/never-sets row. -/
theorem rise_set_one_row_per_body_witness :
    rise_set_loop (fun _ => Except.ok ()) (fun _ => Except.error ()) planets =
      Except.ok (rise_set_info (fun _ => Except.error ())) ∧
    (("mercury").capitalize, "Never rises", "Never sets") ∈
      rise_set_info (fun _ => Except.error ()) :=
  ⟨(rise_set_one_row_per_body (fun _ => Except.ok ())
      (fun _ => Except.error ())).2.1 (fun _ _ => rfl),
   (rise_set_one_row_per_body (fun _ => Except.ok ())
      (fun _ => Except.error ())).2.2.2.2.2 ("mercury", "blue") (by decide) rfl⟩

/-! ## The visibility loop under a fallible provider (C6)

The snapshot loop (lines 85–91) wraps no part of its body in `try`/
`except`: an exception raised by `get_body`/`transform_to` for any one
body propagates out of the loop and the script produces no snapshot at
all.  The loop is therefore embedded with the ephemeris call returning
`Except`, the exception propagating as `Except.error`. -/

/-- The visibility loop with the ephemeris provider modelled as fallible.
A provider error at any catalog body aborts the whole computation, exactly
as an uncaught exception aborts the source's loop. -/
def snapshotLoop (pos : String → Except Unit Sample) :
    List (String × String) → Except Unit (List VisibleRow)
  | [] => Except.ok []
  | pc :: rest =>
    match pos pc.1 with
    | Except.error e => Except.error e
    | Except.ok s =>
      match snapshotLoop pos rest with
      | Except.error e => Except.error e
      | Except.ok tail =>
        Except.ok (if 0 < s.alt then ⟨s.alt, s.az, pc.1.capitalize, pc.2⟩ :: tail else tail)

/-- The loop aborts iff the provider fails for some body of the list. -/
theorem snapshotLoop_error_iff (pos : String → Except Unit Sample)
    (l : List (String × String)) :
    snapshotLoop pos l = Except.error () ↔
      ∃ pc ∈ l, pos pc.1 = Except.error () := by
  induction l with
  | nil => simp [snapshotLoop]
  | cons pc rest ih =>
    simp only [snapshotLoop]
    cases hp : pos pc.1 with
    | error e =>
      cases e
      constructor
      · intro
        exact ⟨pc, List.mem_cons_self pc rest, hp⟩
      · intro
        rfl
    | ok s =>
      cases hr : snapshotLoop pos rest with
      | error e =>
        cases e
        constructor
        · intro
          obtain ⟨pc', hm, herr⟩ := ih.mp hr
          exact ⟨pc', List.mem_cons_of_mem _ hm, herr⟩
        · intro
          rfl
      | ok tail =>
        constructor
        · intro h
          cases h
        · rintro ⟨pc', hm, herr⟩
          rcases List.mem_cons.mp hm with rfl | hm'
          · rw [hp] at herr
            cases herr
          · rw [ih.mpr ⟨pc', hm', herr⟩] at hr
            cases hr

/-- When the provider succeeds everywhere on the list, the loop reduces to
the pure stable filter of the list. -/
theorem snapshotLoop_ok (pos : String → Except Unit Sample) (q : String → Sample)
    (l : List (String × String))
    (h : ∀ pc ∈ l, pos pc.1 = Except.ok (q pc.1)) :
    snapshotLoop pos l =
      Except.ok ((l.filter (fun pc => 0 < (q pc.1).alt)).map (mkRow q)) := by
  induction l with
  | nil => rfl
  | cons pc rest ih =>
    simp only [snapshotLoop]
    rw [h pc (List.mem_cons_self pc rest),
      ih (fun x hx => h x (List.mem_cons_of_mem _ hx))]
    by_cases hv : 0 < (q pc.1).alt
    · rw [List.filter_cons_of_pos (by simpa using hv)]
      simp [hv, mkRow]
    · rw [List.filter_cons_of_neg (by simpa using hv)]
      simp [hv]

/-- A provider that raises for Mercury and succeeds for every other body
with a well-above-horizon sample. -/
def failMercury : String → Except Unit Sample :=
  fun s => if s = "mercury" then Except.error () else Except.ok ⟨45, 180⟩

/-- Counterexample to C6: with the provider failing for Mercury alone (all
seven other bodies and the Sun at +45°), the loop yields no snapshot at
all — the remaining bodies are not produced, no body is omitted with a
diagnostic; the single failure aborts the whole snapshot. -/
theorem snapshot_abort_cex :
    snapshotLoop failMercury planets = Except.error () := rfl

/-- C6 amended: a failing provider call for one body aborts the whole
snapshot — the loop errors iff the provider fails for some catalog body,
and only when every call succeeds does it return the (pure) snapshot; no
degraded per-body omission occurs. -/
theorem snapshot_abort_on_failure (pos : String → Except Unit Sample)
    (q : String → Sample) :
    (snapshotLoop pos planets = Except.error () ↔
      ∃ pc ∈ planets, pos pc.1 = Except.error ()) ∧
    ((∀ pc ∈ planets, pos pc.1 = Except.ok (q pc.1)) →
      snapshotLoop pos planets = Except.ok (visibleRows q)) :=
  ⟨snapshotLoop_error_iff pos planets,
   fun h => by rw [snapshotLoop_ok pos q planets h]; rfl⟩

/-- Witness for C6 (amended): an everywhere-successful provider returns
the pure snapshot. -/
theorem snapshot_abort_on_failure_witness :
    snapshotLoop (fun _ => Except.ok ⟨45, 180⟩) planets =
      Except.ok (visibleRows (fun _ => ⟨45, 180⟩)) :=
  (snapshot_abort_on_failure (fun _ => Except.ok ⟨45, 180⟩)
    (fun _ => ⟨45, 180⟩)).2 (fun _ _ => rfl)

/-! ## Horizon Crossing Solver (modelled from the spec)

The repository delegates rise/set finding to the astroplan library
(`observer.target_rise_time` / `observer.target_set_time`, lines
153–154); the crossing search itself is not part of this source.  The
solver below is modelled from the specification's algorithm: a bracketing
scan at a coarse step across a bounded horizon, bisection refinement under
an iteration cap, and the circumpolar classification `NeverRises` (all
samples negative) / `NeverSets` (all samples positive) when the scan finds
no sign change. -/

/-- Modelled from the spec: the status field of a VisibilityEvent —
`Found` with a concrete instant, the circumpolar outcomes `NeverRises` /
`NeverSets`, and `Indeterminate` for a provider failure. -/
inductive CrossStatus where
  | Found (instant : ℚ)
  | NeverRises
  | NeverSets
  | Indeterminate
  deriving DecidableEq, Repr

/-- Modelled from the spec: the bracketing scan's sample grid — the
altitude function sampled every `step` from the reference instant `t0`
across a scan horizon of `n` steps (each entry an (instant, altitude)
HorizonSample). -/
def scanSamples (alt : ℚ → ℚ) (t0 step : ℚ) (n : ℕ) : List (ℚ × ℚ) :=
  (List.range (n + 1)).map
    (fun i : ℕ => (t0 + (i : ℚ) * step, alt (t0 + (i : ℚ) * step)))

/-- Modelled from the spec: the first upward sign change
(negative/zero → positive) between consecutive samples brackets the next
rise. -/
def findRiseBracket : List (ℚ × ℚ) → Option (ℚ × ℚ)
  | (t1, a1) :: (t2, a2) :: rest =>
    if a1 ≤ 0 ∧ 0 < a2 then some (t1, t2)
    else findRiseBracket ((t2, a2) :: rest)
  | _ => none

/-- Modelled from the spec: the first downward sign change
(positive → negative/zero) between consecutive samples brackets the next
set. -/
def findSetBracket : List (ℚ × ℚ) → Option (ℚ × ℚ)
  | (t1, a1) :: (t2, a2) :: rest =>
    if 0 < a1 ∧ a2 ≤ 0 then some (t1, t2)
    else findSetBracket ((t2, a2) :: rest)
  | _ => none

/-- Modelled from the spec: bisection refinement of a rise bracket under
an iteration cap (the cap is a hard ceiling on the number of halvings). -/
def bisectRise (alt : ℚ → ℚ) : ℕ → ℚ → ℚ → ℚ
  | 0, _, hi => hi
  | cap + 1, lo, hi =>
    if 0 < alt ((lo + hi) / 2) then bisectRise alt cap lo ((lo + hi) / 2)
    else bisectRise alt cap ((lo + hi) / 2) hi

/-- Modelled from the spec: bisection refinement of a set bracket under an
iteration cap. -/
def bisectSet (alt : ℚ → ℚ) : ℕ → ℚ → ℚ → ℚ
  | 0, _, hi => hi
  | cap + 1, lo, hi =>
    if 0 < alt ((lo + hi) / 2) then bisectSet alt cap ((lo + hi) / 2) hi
    else bisectSet alt cap lo ((lo + hi) / 2)

/-- Modelled from the spec: the solver's next-rise outcome — a refined
`Found` instant when the scan brackets an upward crossing, otherwise the
circumpolar classification of the whole scan. -/
def riseOutcome (alt : ℚ → ℚ) (t0 step : ℚ) (n cap : ℕ) : CrossStatus :=
  match findRiseBracket (scanSamples alt t0 step n) with
  | some (lo, hi) => CrossStatus.Found (bisectRise alt cap lo hi)
  | none =>
    if (scanSamples alt t0 step n).all (fun s => s.2 < 0) then CrossStatus.NeverRises
    else if (scanSamples alt t0 step n).all (fun s => 0 < s.2) then CrossStatus.NeverSets
    else CrossStatus.Indeterminate

/-- Modelled from the spec: the solver's next-set outcome. -/
def setOutcome (alt : ℚ → ℚ) (t0 step : ℚ) (n cap : ℕ) : CrossStatus :=
  match findSetBracket (scanSamples alt t0 step n) with
  | some (lo, hi) => CrossStatus.Found (bisectSet alt cap lo hi)
  | none =>
    if (scanSamples alt t0 step n).all (fun s => s.2 < 0) then CrossStatus.NeverRises
    else if (scanSamples alt t0 step n).all (fun s => 0 < s.2) then CrossStatus.NeverSets
    else CrossStatus.Indeterminate

/-- A scan whose altitudes are all negative brackets no rise. -/
theorem findRiseBracket_eq_none {l : List (ℚ × ℚ)} (h : ∀ s ∈ l, s.2 < 0) :
    findRiseBracket l = none := by
  induction l with
  | nil => rfl
  | cons s rest ih =>
    cases rest with
    | nil => rfl
    | cons s2 rest2 =>
      obtain ⟨t1, a1⟩ := s
      obtain ⟨t2, a2⟩ := s2
      have h2 : a2 < 0 := h (t2, a2) (List.mem_cons_of_mem _ (List.mem_cons_self _ _))
      show (if a1 ≤ 0 ∧ 0 < a2 then some (t1, t2)
        else findRiseBracket ((t2, a2) :: rest2)) = none
      rw [if_neg (fun hc => absurd hc.2 (not_lt.mpr (le_of_lt h2)))]
      exact ih (fun x hx => h x (List.mem_cons_of_mem _ hx))

/-- A scan whose altitudes are all positive brackets no set. -/
theorem findSetBracket_eq_none {l : List (ℚ × ℚ)} (h : ∀ s ∈ l, 0 < s.2) :
    findSetBracket l = none := by
  induction l with
  | nil => rfl
  | cons s rest ih =>
    cases rest with
    | nil => rfl
    | cons s2 rest2 =>
      obtain ⟨t1, a1⟩ := s
      obtain ⟨t2, a2⟩ := s2
      have h2 : 0 < a2 := h (t2, a2) (List.mem_cons_of_mem _ (List.mem_cons_self _ _))
      show (if 0 < a1 ∧ a2 ≤ 0 then some (t1, t2)
        else findSetBracket ((t2, a2) :: rest2)) = none
      rw [if_neg (fun hc => absurd hc.2 (not_le.mpr h2))]
      exact ih (fun x hx => h x (List.mem_cons_of_mem _ hx))

/-- C8: if the altitude is negative at every sample of the full scan
horizon the solver reports `NeverRises` and never a `Found` rise instant;
symmetrically, if the altitude is positive at every sample the solver
reports `NeverSets` and never a `Found` set instant — outcomes, not
errors. -/
theorem solver_circumpolar (alt : ℚ → ℚ) (t0 step : ℚ) (n cap : ℕ) :
    ((∀ s ∈ scanSamples alt t0 step n, s.2 < 0) →
      riseOutcome alt t0 step n cap = CrossStatus.NeverRises ∧
      ∀ t : ℚ, riseOutcome alt t0 step n cap ≠ CrossStatus.Found t) ∧
    ((∀ s ∈ scanSamples alt t0 step n, 0 < s.2) →
      setOutcome alt t0 step n cap = CrossStatus.NeverSets ∧
      ∀ t : ℚ, setOutcome alt t0 step n cap ≠ CrossStatus.Found t) := by
  constructor
  · intro h
    have hall : (scanSamples alt t0 step n).all (fun s => s.2 < 0) = true :=
      List.all_eq_true.mpr (fun s hs => decide_eq_true (h s hs))
    have hout : riseOutcome alt t0 step n cap = CrossStatus.NeverRises := by
      rw [riseOutcome, findRiseBracket_eq_none h]
      simp [hall]
    exact ⟨hout, fun t ht => by rw [hout] at ht; cases ht⟩
  · intro h
    have hmem : (t0, alt t0) ∈ scanSamples alt t0 step n := by
      unfold scanSamples
      refine List.mem_map.mpr ⟨0, List.mem_range.mpr (Nat.succ_pos n), ?_⟩
      norm_num
    have h0 : 0 < alt t0 := h (t0, alt t0) hmem
    have hneg : (scanSamples alt t0 step n).all (fun s => s.2 < 0) = false := by
      rw [List.all_eq_false]
      refine ⟨(t0, alt t0), hmem, ?_⟩
      simp only [decide_eq_true_eq, not_lt]
      exact le_of_lt h0
    have hall : (scanSamples alt t0 step n).all (fun s => 0 < s.2) = true :=
      List.all_eq_true.mpr (fun s hs => decide_eq_true (h s hs))
    have hout : setOutcome alt t0 step n cap = CrossStatus.NeverSets := by
      rw [setOutcome, findSetBracket_eq_none h]
      simp [hneg, hall]
    exact ⟨hout, fun t ht => by rw [hout] at ht; cases ht⟩

/-- Witness for C8 at concrete inputs: a body pinned at −5° over a
4-sample scan never rises; one pinned at +5° never sets. -/
theorem solver_circumpolar_witness :
    riseOutcome (fun _ => -5) 0 1 3 5 = CrossStatus.NeverRises ∧
    setOutcome (fun _ => 5) 0 1 3 5 = CrossStatus.NeverSets :=
  ⟨((solver_circumpolar (fun _ => -5) 0 1 3 5).1 (by decide)).1,
   ((solver_circumpolar (fun _ => 5) 0 1 3 5).2 (by decide)).1⟩

end PlanetTracker
